import Mathlib

/-!
Verification of the column-classification and summary-statistic logic of the
HuggingFace dataset-explorer application.

The development shallowly embeds the Python/pandas code of
`app/components/column_analyzer.py`, `app/components/data_visualizer.py`,
`app/utils/huggingface_client.py` and `app/main.py`:

* a pandas `DataFrame` becomes a list of named columns over a small cell type;
* a column's declared dtype becomes the inductive `DType`, and the pandas
  dtype predicates (`pd.api.types.is_numeric_dtype` and friends) become
  boolean functions on `DType` mirroring pandas semantics (in particular,
  pandas counts the boolean dtype as numeric);
* numeric values are rationals, timestamps are integer nanosecond counts,
  `NaN`/`NaT`/`None` cells are `Cell.null`; a pandas float statistic that can
  be `NaN` is modelled as an `Option ℚ` whose `none` represents `NaN`;
* pandas reductions (`mean`, `std`, `min`, `max`, `quantile`, `value_counts`)
  are re-implemented from their documented semantics: reductions skip nulls,
  `quantile` uses linear interpolation between closest ranks, `value_counts`
  counts distinct non-null values sorted by descending frequency,
  `Series.sample(n, random_state)` is a deterministic pseudo-random selection
  of `n` distinct row positions;
* Streamlit rendering reduces to the value that would be rendered: each
  `_show_*` helper returns the record of statistics it writes, a `noData`
  marker for its all-null warning, or `notSupported` for its unsupported-type
  notice, instead of drawing widgets.
-/

namespace HFExplorer

/-- Declared column kind (pandas dtype families relevant to the app). -/
inductive DType where
  | int
  | float
  | bool
  | string
  | object
  | datetime
  | timedelta
deriving DecidableEq

/-- One cell of a DataFrame column: a rational number, a boolean, a piece of
text, a timestamp (integer nanoseconds since the epoch, like pandas), or a
missing value (`NaN`/`NaT`/`None`). -/
inductive Cell where
  | num (q : ℚ)
  | boolV (b : Bool)
  | str (s : String)
  | ts (t : Int)
  | null
deriving DecidableEq

/-- A named column: a declared dtype and its cells.  Column names are kept as
character lists so that the datetime-pattern matching of
`_process_datetime_columns` is directly executable. -/
structure Column where
  name : List Char
  dtype : DType
  cells : List Cell
deriving DecidableEq

/-- A DataFrame: an ordered sequence of named columns (pandas invariant: all
columns have the same length, stated separately as `Uniform`). -/
structure DataFrame where
  cols : List Column
deriving DecidableEq

/-- All columns of the frame have the length of the first one (the pandas
row-count invariant). -/
def DataFrame.nrows (df : DataFrame) : Nat :=
  (df.cols.headD ⟨[], DType.object, []⟩).cells.length

/-- pandas invariant: every column holds exactly `nrows` cells. -/
def DataFrame.Uniform (df : DataFrame) : Prop :=
  ∀ c ∈ df.cols, c.cells.length = df.nrows

/-- `pd.DataFrame.empty`: true when the frame has no elements, i.e. some axis
has length zero. -/
def DataFrame.isEmptyDF (df : DataFrame) : Bool :=
  df.cols.isEmpty || df.nrows == 0

/-- `pd.api.types.is_numeric_dtype`: integer, floating-point — and boolean:
pandas documents and implements the boolean dtype as numeric. -/
def is_numeric_dtype : DType → Bool
  | .int | .float | .bool => true
  | _ => false

/-- `pd.api.types.is_string_dtype`. -/
def is_string_dtype : DType → Bool
  | .string => true
  | _ => false

/-- `pd.api.types.is_object_dtype`. -/
def is_object_dtype : DType → Bool
  | .object => true
  | _ => false

/-- `pd.api.types.is_datetime64_any_dtype`. -/
def is_datetime64_any_dtype : DType → Bool
  | .datetime => true
  | _ => false

/-- The four categories the analyzer distinguishes. -/
inductive ColCategory where
  | numeric
  | textual
  | temporal
  | unsupported
deriving DecidableEq

/-- The dtype dispatch of `_show_type_specific_stats`, as a standalone
classifier: the `if/elif/elif/else` chain over the pandas dtype predicates. -/
def classifyColumn (d : DType) : ColCategory :=
  if is_numeric_dtype d then ColCategory.numeric
  else if is_string_dtype d || is_object_dtype d then ColCategory.textual
  else if is_datetime64_any_dtype d then ColCategory.temporal
  else ColCategory.unsupported

/-- Numeric view of a cell, as pandas numeric reductions see it
(`True`/`False` count as `1`/`0`; missing values are skipped). -/
def cellToRat : Cell → Option ℚ
  | .num q => some q
  | .boolV b => some (if b then 1 else 0)
  | _ => none

/-- Textual view of a cell (missing values are skipped). -/
def cellToStr : Cell → Option String
  | .str s => some s
  | _ => none

/-- Timestamp view of a cell (missing values are skipped). -/
def cellToTs : Cell → Option Int
  | .ts t => some t
  | _ => none

/-- `Series.dropna` on an option-valued sequence: keep the present values. -/
def dropna {α : Type} (xs : List (Option α)) : List α :=
  xs.filterMap id

/-- Removing null entries from a column while keeping the option type
(for stating null-invariance). -/
def removeNulls {α : Type} (xs : List (Option α)) : List (Option α) :=
  xs.filter (fun o => o.isSome)

/-- `Series.isna().sum()`: the number of missing entries. -/
def nullCount {α : Type} (xs : List (Option α)) : Nat :=
  xs.countP (fun o => o.isNone)

/-- Ascending sort, as pandas reductions use internally. -/
def sortAsc (l : List ℚ) : List ℚ :=
  l.insertionSort (· ≤ ·)

/-- `Series.min()` of the non-null values: head of the ascending sort. -/
def seriesMin (l : List ℚ) : ℚ :=
  (sortAsc l).getD 0 0

/-- `Series.max()` of the non-null values: last of the ascending sort. -/
def seriesMax (l : List ℚ) : ℚ :=
  (sortAsc l).getD (l.length - 1) 0

/-- `Series.mean()` of the non-null values. -/
def seriesMean (l : List ℚ) : ℚ :=
  l.sum / (l.length : ℚ)

/-- The square of `Series.std()` (sample variance, `ddof = 1`).  pandas
returns `NaN` (here `none`) when fewer than two values are present; the
standard deviation itself is the nonnegative square root of this value, so
every identity proved about `seriesVar` transfers to `std`. -/
def seriesVar (l : List ℚ) : Option ℚ :=
  if 2 ≤ l.length then
    some ((l.map (fun x => (x - seriesMean l) ^ 2)).sum / ((l.length : ℚ) - 1))
  else none

/-- `Series.quantile(q)` with the default linear interpolation on the sorted
values `ys`: with `h = q * (n - 1)`, `i = ⌊h⌋` and `g = h - i`, the result is
`ys[i] + g * (ys[i+1] - ys[i])` (the index `i + 1` is clamped to `n - 1`;
when `g = 0` the clamp is irrelevant). -/
def quantile (ys : List ℚ) (q : ℚ) : ℚ :=
  let h := q * ((ys.length : ℚ) - 1)
  let i := h.floor.toNat
  let a := ys.getD i 0
  let b := ys.getD (min (i + 1) (ys.length - 1)) 0
  a + (h - (i : ℚ)) * (b - a)

/-- The record of statistics `_show_numeric_stats` renders (before the
two-decimal display formatting, which only affects the written text). -/
structure NumericSummary where
  mean : ℚ
  stdSq : Option ℚ
  min : ℚ
  q25 : ℚ
  median : ℚ
  q75 : ℚ
  max : ℚ
deriving DecidableEq

/-- `_show_numeric_stats`: drop the nulls; if nothing is left, render the
warning `Todos os valores são nulos` (the `none` sentinel); otherwise compute
mean, std, min, the three quartiles and max of the remaining values. -/
def show_numeric_stats (xs : List (Option ℚ)) : Option NumericSummary :=
  let clean := dropna xs
  if clean.length = 0 then none
  else
    let ys := sortAsc clean
    some
      { mean := seriesMean clean
        stdSq := seriesVar clean
        min := seriesMin clean
        q25 := quantile ys (1 / 4)
        median := quantile ys (1 / 2)
        q75 := quantile ys (3 / 4)
        max := seriesMax clean }

/-- The numeric block of `get_column_stats`: each pandas reduction on a
column, where `none` is the `NaN` every reduction returns when no non-null
value exists (pandas does not raise there, it propagates `NaN`). -/
structure PandasNumStats where
  mean : Option ℚ
  stdSq : Option ℚ
  min : Option ℚ
  max : Option ℚ
  median : Option ℚ
  q25 : Option ℚ
  q75 : Option ℚ
deriving DecidableEq

/-- The seven numeric reductions of `get_column_stats` (`mean`, `std`, `min`,
`max`, `median`, `quantile(0.25)`, `quantile(0.75)`), each with pandas'
default `skipna` behaviour. -/
def pandasNumStats (xs : List (Option ℚ)) : PandasNumStats :=
  let clean := dropna xs
  if clean.length = 0 then
    { mean := none, stdSq := none, min := none, max := none
      median := none, q25 := none, q75 := none }
  else
    let ys := sortAsc clean
    { mean := some (seriesMean clean)
      stdSq := seriesVar clean
      min := some (seriesMin clean)
      max := some (seriesMax clean)
      median := some (quantile ys (1 / 2))
      q25 := some (quantile ys (1 / 4))
      q75 := some (quantile ys (3 / 4)) }

/-- `Series.nunique()`: number of distinct non-null values. -/
def nunique (cells : List Cell) : Nat :=
  ((cells.filter (fun c => c ≠ Cell.null)).dedup).length

/-- The dictionary built by `get_column_stats`. -/
structure ColumnStats where
  column : List Char
  dtype : DType
  count : Nat
  unique : Nat
  null_count : Nat
  null_pct : ℚ
  numeric : Option PandasNumStats
deriving DecidableEq

/-- `Series.isna()` on one cell: true exactly for a missing value. -/
def isNullCell : Cell → Bool
  | .null => true
  | _ => false

/-- `get_column_stats`: the always-present fields, plus — exactly when the
column's dtype is numeric — the seven pandas numeric reductions.  There is no
all-null guard in this function: on an all-null numeric column the reductions
all come back `NaN` (`none`). -/
def get_column_stats (c : Column) : ColumnStats :=
  { column := c.name
    dtype := c.dtype
    count := c.cells.length
    unique := nunique c.cells
    null_count := c.cells.countP isNullCell
    null_pct := ((c.cells.countP isNullCell : ℚ) / (c.cells.length : ℚ)) * 100
    numeric :=
      if is_numeric_dtype c.dtype then some (pandasNumStats (c.cells.map cellToRat))
      else none }

/-- `numpy.round` (half-to-even, "banker's rounding") to an integer. -/
def roundHalfEven (x : ℚ) : Int :=
  let f := x.floor
  let r := x - (f : ℚ)
  if r < 1 / 2 then f
  else if 1 / 2 < r then f + 1
  else if Even f then f else f + 1

/-- `.round(1)`: numpy rounding to one decimal place. -/
def round1 (x : ℚ) : ℚ :=
  (roundHalfEven (x * 10) : ℚ) / 10

/-- `Series.value_counts()` (default `dropna=True`): frequency of each
distinct non-null value, sorted by descending count.  The order among values
of equal count is deterministic but unspecified (pandas keeps first-appearance
order; here the tie order comes from `List.dedup` and a stable sort — no
claim depends on the tie order). -/
def value_counts (xs : List (Option String)) : List (String × Nat) :=
  let clean := dropna xs
  (clean.dedup.map (fun v => (v, clean.count v))).insertionSort
    (fun a b => b.2 ≤ a.2)

/-- The top-`n` frequency table of `_show_categorical_stats` (`n = 10` there)
and, with the slider value for `n`, of `_render_bar_chart`: value, count, and
the count as a percentage of the **total** row count (nulls included),
rounded to one decimal place. -/
def top_n_table (xs : List (Option String)) (n : Nat) : List (String × Nat × ℚ) :=
  ((value_counts xs).take n).map
    (fun p => (p.1, p.2, round1 ((p.2 : ℚ) / (xs.length : ℚ) * 100)))

/-- The exact (unrounded) percentage-of-total-rows of one frequency. -/
def exactPct (total count : Nat) : ℚ :=
  (count : ℚ) / (total : ℚ) * 100

/-- Sum of the exact top-`n` percentages of a textual column. -/
def exactPctSum (xs : List (Option String)) (n : Nat) : ℚ :=
  (((value_counts xs).take n).map (fun p => exactPct xs.length p.2)).sum

/-- `_show_categorical_stats`: the top-10 table, or the warning
`Nenhum valor encontrado` (the `none` sentinel) when `value_counts` is
empty. -/
def show_categorical_stats (xs : List (Option String)) :
    Option (List (String × Nat × ℚ)) :=
  if (value_counts xs).take 10 = [] then none
  else some (top_n_table xs 10)

/-- Nanoseconds per day: pandas timestamps and timedeltas count integer
nanoseconds, and `Timedelta.days` divides by this with floor division. -/
def nsPerDay : Int := 86400 * 1000000000

/-- The record of statistics `_show_datetime_stats` renders. -/
structure DatetimeSummary where
  earliest : Int
  latest : Int
  spanDays : Int
deriving DecidableEq

/-- Ascending sort of timestamps. -/
def sortTs (l : List Int) : List Int :=
  l.insertionSort (· ≤ ·)

/-- `_show_datetime_stats`: drop the nulls; if nothing is left, render the
warning `Todos os valores são nulos` (the `none` sentinel); otherwise report
the earliest value (`min`), the latest value (`max`) and
`(max - min).days`, the whole-day span of their difference. -/
def show_datetime_stats (xs : List (Option Int)) : Option DatetimeSummary :=
  let clean := dropna xs
  if clean.length = 0 then none
  else
    let mn := (sortTs clean).getD 0 0
    let mx := (sortTs clean).getD (clean.length - 1) 0
    some { earliest := mn, latest := mx, spanDays := (mx - mn) / nsPerDay }

/-- What `_show_type_specific_stats` renders for one column: one statistics
block, the no-data warning of the chosen block, or the notice
`Tipo de dado não suportado para estatísticas detalhadas`. -/
inductive StatsOutput where
  | numericStats (s : NumericSummary)
  | topValues (t : List (String × Nat × ℚ))
  | datetimeStats (s : DatetimeSummary)
  | noData
  | notSupported
deriving DecidableEq

/-- `_show_type_specific_stats`: dispatch on the pandas dtype predicates in
source order (numeric, then string-or-object, then datetime, else the
unsupported-type notice), and render the corresponding statistics block. -/
def show_type_specific_stats (c : Column) : StatsOutput :=
  if is_numeric_dtype c.dtype then
    match show_numeric_stats (c.cells.map cellToRat) with
    | none => StatsOutput.noData
    | some s => StatsOutput.numericStats s
  else if is_string_dtype c.dtype || is_object_dtype c.dtype then
    match show_categorical_stats (c.cells.map cellToStr) with
    | none => StatsOutput.noData
    | some t => StatsOutput.topValues t
  else if is_datetime64_any_dtype c.dtype then
    match show_datetime_stats (c.cells.map cellToTs) with
    | none => StatsOutput.noData
    | some s => StatsOutput.datetimeStats s
  else StatsOutput.notSupported

/-- The values `_show_basic_info` renders for the selected column. -/
structure BasicInfo where
  total_count : Nat
  unique_count : Nat
  null_count : Nat
  null_pct : ℚ
  completeness : ℚ
deriving DecidableEq

/-- `_show_basic_info`: row count, distinct non-null count, null count, the
null percentage `null_count / total_count * 100`, and the completeness
indicator `100 - null_pct`. -/
def show_basic_info (c : Column) : BasicInfo :=
  let total := c.cells.length
  let nulls := c.cells.countP isNullCell
  let pct := ((nulls : ℚ) / (total : ℚ)) * 100
  { total_count := total
    unique_count := nunique c.cells
    null_count := nulls
    null_pct := pct
    completeness := 100 - pct }

/-- `df[col]`: look a column up by name. -/
def DataFrame.getCol (df : DataFrame) (name : List Char) : Option Column :=
  df.cols.find? (fun c => c.name = name)

/-- `analyze_columns`, restricted to its data path for one selected column:
on an empty frame it stops at the `DataFrame vazio` warning (`none`);
otherwise it renders the basic-information block and the type-specific
statistics block for the selected column. -/
def analyze_columns (df : DataFrame) (name : List Char) :
    Option (BasicInfo × StatsOutput) :=
  if df.isEmptyDF then none
  else
    match df.getCol name with
    | none => none
    | some c => some (show_basic_info c, show_type_specific_stats c)

/-- The name patterns of `_process_datetime_columns`. -/
def date_patterns : List (List Char) :=
  ["date".toList, "time".toList, "timestamp".toList,
   "_at".toList, "_date".toList, "_time".toList]

/-- `col.lower()` on a character-list name. -/
def lowerName (name : List Char) : List Char :=
  name.map Char.toLower

/-- `any(pattern in col_lower for pattern in date_patterns)`: does the
lowercased column name contain one of the datetime name patterns as a
substring? -/
def matchesDatePattern (name : List Char) : Bool :=
  date_patterns.any (fun p => decide (p <:+: lowerName name))

/-- `pd.to_datetime(values, errors="coerce")` on one column, with the parser
itself (an external pandas collaborator) abstracted as `parse`: every cell
becomes its parsed timestamp, and a cell that fails to parse becomes null
instead of aborting the conversion. -/
def to_datetime_coerce (parse : Cell → Option Int) (cells : List Cell) :
    List Cell :=
  cells.map (fun v =>
    match parse v with
    | some t => Cell.ts t
    | none => Cell.null)

/-- `_process_datetime_columns` on one column: a column whose lowercased name
contains a datetime pattern is reinterpreted as timestamps (dtype becomes
datetime); any other column is returned untouched. -/
def processCol (parse : Cell → Option Int) (c : Column) : Column :=
  if matchesDatePattern c.name then
    { name := c.name, dtype := DType.datetime
      cells := to_datetime_coerce parse c.cells }
  else c

/-- `_process_datetime_columns`: the per-column loop over the frame. -/
def process_datetime_columns (parse : Cell → Option Int) (df : DataFrame) :
    DataFrame :=
  ⟨df.cols.map (processCol parse)⟩

/-- One step of a 32-bit multiplicative-congruential key stream: the
deterministic pseudo-random key the sampler gives row `i` under `seed`.
(The concrete constants stand in for pandas' Mersenne-Twister state, which is
library-internal; every property proved below depends only on the keyed
selection being a deterministic function of `(seed, input)`.) -/
def lcgKey (seed i : Nat) : Nat :=
  (seed * 2654435761 + i * 2246822519 + 3266489917) % 4294967296

/-- `DataFrame.sample(n, random_state=seed)`: deterministically select `n`
distinct row positions (all of them when fewer than `n` rows exist) by
ordering the row positions by their pseudo-random key and keeping the first
`n`, then read those rows. -/
def sampleSeeded {α : Type} (seed n : Nat) (rows : List α) : List α :=
  let idxs :=
    ((List.range rows.length).insertionSort
      (fun a b => lcgKey seed a ≤ lcgKey seed b)).take n
  idxs.filterMap (fun i => rows[i]?)

/-- `df[[x_col, y_col]].dropna()` on one row: keep the row exactly when both
coordinates are present. -/
def joinPair : Option ℚ × Option ℚ → Option (ℚ × ℚ)
  | (some a, some b) => some (a, b)
  | _ => none

/-- The data path of `_render_scatter` for a chosen pair of numeric columns:
drop rows where either coordinate is null; warn (`none`) when nothing
remains; sample down to 5000 rows with `random_state=42` when more than 5000
remain; otherwise use every row. -/
def render_scatter (rows : List (Option ℚ × Option ℚ)) :
    Option (List (ℚ × ℚ)) :=
  let clean := rows.filterMap joinPair
  if clean.length = 0 then none
  else if 5000 < clean.length then some (sampleSeeded 42 5000 clean)
  else some clean

/-- What the external `datasets.load_dataset` + `Dataset.to_pandas` call
produces: a frame, a `ValueError` (unknown dataset or invalid split), or any
other exception. -/
inductive HFLoadResult where
  | ok (df : DataFrame)
  | valueError (msg : String)
  | otherError (msg : String)

/-- The two error kinds `load_hf_dataset` re-raises. -/
inductive LoadError where
  | validation (msg : String)
  | generic (msg : String)
deriving DecidableEq

/-- The guidance message of the re-raised `ValueError` (source: `Dataset
'{dataset_name}' não encontrado ou split '{split}' inválido. Verifique o nome
e tente novamente.`; quotes and accents elided). -/
def validationMsg (dataset_name split : String) : String :=
  "Dataset " ++ dataset_name ++ " nao encontrado ou split " ++ split ++
    " invalido. Verifique o nome e tente novamente."

/-- The message of the re-raised generic exception (source: `Erro ao carregar
dataset '{dataset_name}': {str(e)}`). -/
def genericMsg (dataset_name msg : String) : String :=
  "Erro ao carregar dataset " ++ dataset_name ++ ": " ++ msg

/-- `load_hf_dataset`: on success, convert and run the datetime heuristic; a
`ValueError` from the external load is re-raised as a validation error whose
message names the dataset and the split; any other failure is re-raised as a
generic load error carrying the underlying message. -/
def load_hf_dataset (parse : Cell → Option Int) (dataset_name split : String)
    (r : HFLoadResult) : Except LoadError DataFrame :=
  match r with
  | .ok df => Except.ok (process_datetime_columns parse df)
  | .valueError _ => Except.error (LoadError.validation (validationMsg dataset_name split))
  | .otherError m => Except.error (LoadError.generic (genericMsg dataset_name m))

/-- What `DatasetExplorer.load_dataset` leaves on screen: the success banner
with the loaded frame, or a non-fatally reported error (`st.error`, plus the
`st.info` hint in the validation case). -/
inductive LoadOutcome where
  | success (df : DataFrame)
  | reportedValidation (msg : String)
  | reportedGeneric (msg : String)

/-- `DatasetExplorer.load_dataset`: call the loader and catch both error
kinds, reporting them without re-raising. -/
def explorer_load_dataset (parse : Cell → Option Int)
    (dataset_name split : String) (r : HFLoadResult) : LoadOutcome :=
  match load_hf_dataset parse dataset_name split r with
  | .ok df => LoadOutcome.success df
  | .error (.validation m) => LoadOutcome.reportedValidation m
  | .error (.generic m) => LoadOutcome.reportedGeneric m

/-! ### Helper lemmas -/

/-- Dropping the nulls after removing the null entries is dropping the
nulls. -/
theorem dropna_removeNulls {α : Type} (xs : List (Option α)) :
    dropna (removeNulls xs) = dropna xs := by
  induction xs with
  | nil => rfl
  | cons o t ih =>
    cases o <;> simp [dropna, removeNulls, List.filter] at ih ⊢ <;>
      simpa [dropna, removeNulls] using ih

/-- A concrete all-null numeric column (two `NaN` cells, float dtype). -/
def allNullNumericColumn : Column :=
  ⟨['x'], DType.float, [Cell.null, Cell.null]⟩

/-- The record of seven `NaN` reductions. -/
def pandasAllNaN : PandasNumStats :=
  ⟨none, none, none, none, none, none, none⟩

/-! ### C1 -/

/-- C1 (counterexample): the claim asserts that *every* entry point that
computes numeric summaries — `_show_numeric_stats` *and* the cached
`get_column_stats` — returns a no-data sentinel for an all-null numeric
column, with no `NaN` propagating into the returned statistics.
`get_column_stats` has no all-null guard: on the all-null float column it
returns the statistics dictionary whose seven numeric entries are all `NaN`
(modelled `none`), so `NaN` does propagate into the returned statistics,
while the renderer `_show_numeric_stats` on the same cells stops at its
no-data warning. -/
theorem C1_counterexample :
    (get_column_stats allNullNumericColumn).numeric = some pandasAllNaN ∧
    show_numeric_stats (allNullNumericColumn.cells.map cellToRat) = none := by
  decide

/-- C1 (amended): for a numeric column whose values are all null,
`_show_numeric_stats` returns the no-data sentinel (its
`Todos os valores são nulos` warning) without raising and without dividing
by zero; `get_column_stats` also does not raise and does not divide by zero,
but instead of a sentinel it returns the seven pandas reductions as `NaN`
(modelled `none`). -/
theorem C1_all_null_numeric (xs : List (Option ℚ)) (h : dropna xs = []) :
    show_numeric_stats xs = none ∧ pandasNumStats xs = pandasAllNaN := by
  constructor <;> simp [show_numeric_stats, pandasNumStats, h, pandasAllNaN]

/-- C1 witness: the amended theorem applied to a concrete all-null column. -/
theorem C1_witness :
    show_numeric_stats ([none, none] : List (Option ℚ)) = none ∧
    pandasNumStats ([none, none] : List (Option ℚ)) = pandasAllNaN :=
  C1_all_null_numeric [none, none] (by decide)

/-! ### C2 -/

/-- C2 (counterexample): the claim asserts that a column whose declared kind
is boolean is classified UNSUPPORTED.  In the source the first branch of the
dispatch is `pd.api.types.is_numeric_dtype`, and pandas counts the boolean
dtype as numeric, so a boolean column is classified NUMERIC and receives the
numeric summary, not the `not supported` notice. -/
theorem C2_counterexample :
    classifyColumn DType.bool = ColCategory.numeric ∧
    classifyColumn DType.bool ≠ ColCategory.unsupported := by
  decide

/-- C2 (amended): the classifier returns exactly one of the four categories
as a pure function of the declared kind; integer, float — and boolean —
kinds are NUMERIC (pandas treats the boolean dtype as numeric);
for every kind classified UNSUPPORTED (those outside the numeric,
string/object and datetime families, e.g. timedelta) the summary computation
is skipped and the `not supported` notice is the only output. -/
theorem C2_classifier (c : Column) :
    (classifyColumn c.dtype = ColCategory.numeric ∨
     classifyColumn c.dtype = ColCategory.textual ∨
     classifyColumn c.dtype = ColCategory.temporal ∨
     classifyColumn c.dtype = ColCategory.unsupported) ∧
    classifyColumn DType.bool = ColCategory.numeric ∧
    (classifyColumn c.dtype = ColCategory.unsupported →
      show_type_specific_stats c = StatsOutput.notSupported) := by
  obtain ⟨nm, d, cells⟩ := c
  cases d <;>
    simp [classifyColumn, show_type_specific_stats, is_numeric_dtype,
      is_string_dtype, is_object_dtype, is_datetime64_any_dtype]

/-- A concrete column of unsupported (timedelta) dtype. -/
def timedeltaColumn : Column :=
  ⟨['d','u','r'], DType.timedelta, [Cell.ts 5, Cell.null]⟩

/-- C2 witness: the amended theorem applied to the timedelta column. -/
theorem C2_witness :
    show_type_specific_stats timedeltaColumn = StatsOutput.notSupported :=
  (C2_classifier timedeltaColumn).2.2 (by decide)

/-! ### C5 -/

/-- C5 (confirmed): the heuristic maps `processCol` over every column;
a column whose lowercased name contains none of the six substrings is left
completely untouched (same values, same declared kind); a column whose name
matches is reinterpreted: every cell becomes its parsed timestamp and every
cell that fails to parse becomes null (never aborting the column); and the
match test holds exactly when some pattern is an (infix) substring of the
lowercased name. -/
theorem C5_datetime_heuristic (parse : Cell → Option Int) (df : DataFrame)
    (c : Column) :
    (process_datetime_columns parse df).cols = df.cols.map (processCol parse) ∧
    (matchesDatePattern c.name = false → processCol parse c = c) ∧
    (matchesDatePattern c.name = true →
      processCol parse c =
        ⟨c.name, DType.datetime, to_datetime_coerce parse c.cells⟩) ∧
    (∀ v, parse v = none → to_datetime_coerce parse [v] = [Cell.null]) ∧
    (matchesDatePattern c.name = true ↔
      ∃ p ∈ date_patterns, p <:+: lowerName c.name) := by
  refine ⟨rfl, ?_, ?_, ?_, ?_⟩
  · intro h; simp [processCol, h]
  · intro h; simp [processCol, h]
  · intro v hv; simp [to_datetime_coerce, hv]
  · simp [matchesDatePattern, List.any_eq_true]

/-- The `created_at` column of the repository's own test
`test_process_datetime_columns`. -/
def createdAtColumn : Column :=
  ⟨"created_at".toList, DType.string,
   [Cell.str "2024-01-01", Cell.str "2024-01-02", Cell.str "2024-01-03"]⟩

/-- The `value` column of the same test. -/
def valueColumn : Column :=
  ⟨"value".toList, DType.int, [Cell.num 1, Cell.num 2, Cell.num 3]⟩

/-- C5 witness: with a parser that fails on everything, the heuristic leaves
the `value` column untouched and converts every cell of the `created_at`
column to null rather than aborting. -/
theorem C5_witness :
    processCol (fun _ => none) valueColumn = valueColumn ∧
    processCol (fun _ => none) createdAtColumn =
      ⟨createdAtColumn.name, DType.datetime,
        to_datetime_coerce (fun _ => none) createdAtColumn.cells⟩ :=
  ⟨(C5_datetime_heuristic (fun _ => none) ⟨[]⟩ valueColumn).2.1 (by decide),
   (C5_datetime_heuristic (fun _ => none) ⟨[]⟩ createdAtColumn).2.2.1 (by decide)⟩

/-! ### C9 -/

/-- C9 (confirmed): the loader surfaces exactly two error kinds.  A
`ValueError` from the external load is re-raised as a validation error whose
message names the dataset and the split; any other failure is re-raised as a
generic load error whose message carries the underlying message; the caller
catches both kinds and reports them non-fatally (`reportedValidation` with
the extra hint, `reportedGeneric`); on success neither error is raised and
the caller shows the success banner. -/
theorem C9_loader_errors (parse : Cell → Option Int) (n s : String)
    (r : HFLoadResult) :
    (∀ df, r = HFLoadResult.ok df →
      load_hf_dataset parse n s r =
        Except.ok (process_datetime_columns parse df) ∧
      explorer_load_dataset parse n s r =
        LoadOutcome.success (process_datetime_columns parse df)) ∧
    (∀ m, r = HFLoadResult.valueError m →
      load_hf_dataset parse n s r =
        Except.error (LoadError.validation (validationMsg n s)) ∧
      explorer_load_dataset parse n s r =
        LoadOutcome.reportedValidation (validationMsg n s) ∧
      (∃ a b, validationMsg n s = a ++ n ++ b) ∧
      (∃ a b, validationMsg n s = a ++ s ++ b)) ∧
    (∀ m, r = HFLoadResult.otherError m →
      load_hf_dataset parse n s r =
        Except.error (LoadError.generic (genericMsg n m)) ∧
      explorer_load_dataset parse n s r =
        LoadOutcome.reportedGeneric (genericMsg n m) ∧
      (∃ a b, genericMsg n m = a ++ m ++ b)) := by
  refine ⟨?_, ?_, ?_⟩
  · rintro df rfl
    exact ⟨rfl, rfl⟩
  · rintro m rfl
    refine ⟨rfl, rfl, ⟨"Dataset ", ?_⟩, ?_⟩
    · exact ⟨" nao encontrado ou split " ++ s ++
        " invalido. Verifique o nome e tente novamente.", by
          simp only [validationMsg, String.append_assoc]⟩
    · exact ⟨"Dataset " ++ n ++ " nao encontrado ou split ",
        " invalido. Verifique o nome e tente novamente.", by
          simp only [validationMsg, String.append_assoc]⟩
  · rintro m rfl
    refine ⟨rfl, rfl, "Erro ao carregar dataset " ++ n ++ ": ", "", ?_⟩
    simp only [genericMsg, String.append_assoc, String.append_empty]

/-- C9 witness: the theorem applied to each of the three load results. -/
theorem C9_witness :
    explorer_load_dataset (fun _ => none) "user/data" "train"
        (HFLoadResult.valueError "bad") =
      LoadOutcome.reportedValidation (validationMsg "user/data" "train") ∧
    explorer_load_dataset (fun _ => none) "user/data" "train"
        (HFLoadResult.otherError "net down") =
      LoadOutcome.reportedGeneric (genericMsg "user/data" "net down") ∧
    explorer_load_dataset (fun _ => none) "user/data" "train"
        (HFLoadResult.ok ⟨[]⟩) =
      LoadOutcome.success (process_datetime_columns (fun _ => none) ⟨[]⟩) :=
  ⟨((C9_loader_errors (fun _ => none) "user/data" "train"
      (HFLoadResult.valueError "bad")).2.1 "bad" rfl).2.1,
   ((C9_loader_errors (fun _ => none) "user/data" "train"
      (HFLoadResult.otherError "net down")).2.2 "net down" rfl).2.1,
   ((C9_loader_errors (fun _ => none) "user/data" "train"
      (HFLoadResult.ok ⟨[]⟩)).1 ⟨[]⟩ rfl).2⟩

/-! ### Sorted-list helpers -/

/-- The ascending insertion sort is sorted. -/
theorem insertionSort_le_sorted {α : Type} [LinearOrder α] (l : List α) :
    (l.insertionSort (· ≤ ·)).Sorted (· ≤ ·) :=
  List.sorted_insertionSort _ l

/-- In a sorted list, `getD` is monotone in the index (for in-range
indices). -/
theorem getD_le_getD_of_sorted {α : Type} [LinearOrder α] {l : List α}
    (hs : l.Sorted (· ≤ ·)) {j k : Nat} (hjk : j ≤ k) (hk : k < l.length)
    (d : α) : l.getD j d ≤ l.getD k d := by
  have hj : j < l.length := lt_of_le_of_lt hjk hk
  have h := hs.rel_get_of_le (a := ⟨j, hj⟩) (b := ⟨k, hk⟩)
    (Fin.mk_le_mk.mpr hjk)
  simpa [List.getD_eq_getElem?_getD, List.getElem?_eq_getElem, hj, hk,
    List.get_eq_getElem] using h

/-- The head of the ascending sort is a lower bound of the list. -/
theorem sortedHead_le_mem {α : Type} [LinearOrder α] {l : List α} {x : α}
    (hx : x ∈ l) (d : α) : (l.insertionSort (· ≤ ·)).getD 0 d ≤ x := by
  have hx' : x ∈ l.insertionSort (· ≤ ·) :=
    ((List.perm_insertionSort _ l).mem_iff).mpr hx
  obtain ⟨⟨k, hk⟩, hget⟩ := List.mem_iff_get.mp hx'
  have h := getD_le_getD_of_sorted (insertionSort_le_sorted l)
    (Nat.zero_le k) hk d
  have hkx : (l.insertionSort (· ≤ ·)).getD k d = x := by
    rw [List.getD_eq_getElem?_getD, List.getElem?_eq_getElem hk,
      Option.getD_some]
    exact hget
  rwa [hkx] at h

/-- The last element of the ascending sort is an upper bound of the list. -/
theorem mem_le_sortedLast {α : Type} [LinearOrder α] {l : List α} {x : α}
    (hx : x ∈ l) (d : α) :
    x ≤ (l.insertionSort (· ≤ ·)).getD (l.length - 1) d := by
  have hx' : x ∈ l.insertionSort (· ≤ ·) :=
    ((List.perm_insertionSort _ l).mem_iff).mpr hx
  obtain ⟨⟨k, hk⟩, hget⟩ := List.mem_iff_get.mp hx'
  have hlen : (l.insertionSort (· ≤ ·)).length = l.length :=
    List.length_insertionSort _ l
  have hlast : l.length - 1 < (l.insertionSort (· ≤ ·)).length := by
    rw [hlen]
    have : 0 < l.length := by
      cases l with
      | nil => cases hx
      | cons a t => simp
    omega
  have h := getD_le_getD_of_sorted (insertionSort_le_sorted l)
    (by omega : k ≤ l.length - 1) hlast d
  have hkx : (l.insertionSort (· ≤ ·)).getD k d = x := by
    rw [List.getD_eq_getElem?_getD, List.getElem?_eq_getElem hk,
      Option.getD_some]
    exact hget
  rwa [hkx] at h

/-- For a nonempty list, the head and last of the ascending sort are members
of the list. -/
theorem sortedHead_mem {α : Type} [LinearOrder α] {l : List α}
    (hl : l ≠ []) (d : α) : (l.insertionSort (· ≤ ·)).getD 0 d ∈ l := by
  have hlen : (l.insertionSort (· ≤ ·)).length = l.length :=
    List.length_insertionSort _ l
  have h0 : 0 < (l.insertionSort (· ≤ ·)).length := by
    rw [hlen]; exact List.length_pos.mpr hl
  rw [List.getD_eq_getElem?_getD, List.getElem?_eq_getElem h0,
    Option.getD_some]
  exact ((List.perm_insertionSort _ l).mem_iff).mp (List.getElem_mem h0)

/-- For a nonempty list, the last of the ascending sort is a member. -/
theorem sortedLast_mem {α : Type} [LinearOrder α] {l : List α}
    (hl : l ≠ []) (d : α) :
    (l.insertionSort (· ≤ ·)).getD (l.length - 1) d ∈ l := by
  have hlen : (l.insertionSort (· ≤ ·)).length = l.length :=
    List.length_insertionSort _ l
  have h0 : l.length - 1 < (l.insertionSort (· ≤ ·)).length := by
    rw [hlen]
    have : 0 < l.length := List.length_pos.mpr hl
    omega
  rw [List.getD_eq_getElem?_getD, List.getElem?_eq_getElem h0,
    Option.getD_some]
  exact ((List.perm_insertionSort _ l).mem_iff).mp (List.getElem_mem h0)

/-! ### C6 -/

/-- C6 (confirmed): for a temporal column with at least one non-null value,
the summary reports the earliest value (a member of the data, a lower bound
of every non-null value), the latest value (a member, an upper bound), and a
span in whole days that is nonnegative and equals the floor of the exact day
difference: `spanDays * nsPerDay ≤ latest - earliest <
(spanDays + 1) * nsPerDay`.  Since the difference is nonnegative, floor and
truncation toward zero agree. -/
theorem C6_temporal_span (xs : List (Option Int)) (s : DatetimeSummary)
    (h : show_datetime_stats xs = some s) :
    s.earliest ∈ dropna xs ∧ s.latest ∈ dropna xs ∧
    (∀ t ∈ dropna xs, s.earliest ≤ t ∧ t ≤ s.latest) ∧
    s.earliest ≤ s.latest ∧ 0 ≤ s.spanDays ∧
    s.spanDays * nsPerDay ≤ s.latest - s.earliest ∧
    s.latest - s.earliest < (s.spanDays + 1) * nsPerDay := by
  unfold show_datetime_stats at h
  by_cases hc : (dropna xs).length = 0
  · simp [hc] at h
  · simp only [hc, if_false] at h
    obtain ⟨rfl⟩ := Option.some_injective _ h
    have hne : dropna xs ≠ [] := by
      intro hnil; exact hc (by simp [hnil])
    have hmnmem : (sortTs (dropna xs)).getD 0 0 ∈ dropna xs :=
      sortedHead_mem hne 0
    have hmxmem :
        (sortTs (dropna xs)).getD ((dropna xs).length - 1) 0 ∈ dropna xs :=
      sortedLast_mem hne 0
    have hbounds : ∀ t ∈ dropna xs,
        (sortTs (dropna xs)).getD 0 0 ≤ t ∧
        t ≤ (sortTs (dropna xs)).getD ((dropna xs).length - 1) 0 :=
      fun t ht => ⟨sortedHead_le_mem ht 0, mem_le_sortedLast ht 0⟩
    have hmnmx := (hbounds _ hmxmem).1
    have hD : (0 : Int) < nsPerDay := by norm_num [nsPerDay]
    set mn := (sortTs (dropna xs)).getD 0 0
    set mx := (sortTs (dropna xs)).getD ((dropna xs).length - 1) 0
    have hdiv : nsPerDay * ((mx - mn) / nsPerDay) + (mx - mn) % nsPerDay
        = mx - mn := Int.ediv_add_emod _ _
    have hmod0 : 0 ≤ (mx - mn) % nsPerDay :=
      Int.emod_nonneg _ (by norm_num [nsPerDay])
    have hmodlt : (mx - mn) % nsPerDay < nsPerDay :=
      Int.emod_lt_of_pos _ hD
    refine ⟨hmnmem, hmxmem, hbounds, hmnmx, ?_, ?_, ?_⟩
    · exact Int.ediv_nonneg (by omega) (le_of_lt hD)
    · nlinarith [hdiv, hmod0]
    · nlinarith [hdiv, hmodlt]

/-- C6 witness: a column holding midnight of day 0 and two days plus five
nanoseconds later; the span is two whole days. -/
theorem C6_witness :
    DatetimeSummary.earliest
        ⟨0, 2 * nsPerDay + 5, 2⟩ ∈ dropna [some 0, some (2 * nsPerDay + 5)] ∧
    DatetimeSummary.latest
        ⟨0, 2 * nsPerDay + 5, 2⟩ ∈ dropna [some 0, some (2 * nsPerDay + 5)] ∧
    (∀ t ∈ dropna [some 0, some (2 * nsPerDay + 5)],
      DatetimeSummary.earliest ⟨0, 2 * nsPerDay + 5, 2⟩ ≤ t ∧
      t ≤ DatetimeSummary.latest ⟨0, 2 * nsPerDay + 5, 2⟩) ∧
    DatetimeSummary.earliest ⟨0, 2 * nsPerDay + 5, 2⟩ ≤
      DatetimeSummary.latest ⟨0, 2 * nsPerDay + 5, 2⟩ ∧
    0 ≤ DatetimeSummary.spanDays ⟨0, 2 * nsPerDay + 5, 2⟩ ∧
    DatetimeSummary.spanDays ⟨0, 2 * nsPerDay + 5, 2⟩ * nsPerDay ≤
      DatetimeSummary.latest ⟨0, 2 * nsPerDay + 5, 2⟩ -
        DatetimeSummary.earliest ⟨0, 2 * nsPerDay + 5, 2⟩ ∧
    DatetimeSummary.latest ⟨0, 2 * nsPerDay + 5, 2⟩ -
        DatetimeSummary.earliest ⟨0, 2 * nsPerDay + 5, 2⟩ <
      (DatetimeSummary.spanDays ⟨0, 2 * nsPerDay + 5, 2⟩ + 1) * nsPerDay :=
  C6_temporal_span [some 0, some (2 * nsPerDay + 5)] ⟨0, 2 * nsPerDay + 5, 2⟩
    (by decide)

/-! ### C10 -/

/-- C10 (confirmed): `analyze_columns` stops at the `DataFrame vazio` warning
whenever the frame is empty, so the basic-info renderer only ever runs on a
frame with at least one row; there its total row count is strictly positive,
the denominator of the null-percentage division is nonzero, and the
completeness value is `100` minus that percentage. -/
theorem C10_nonempty_analysis (df : DataFrame) (name : List Char) :
    (df.isEmptyDF = true → analyze_columns df name = none) ∧
    (df.Uniform → ∀ info stats, analyze_columns df name = some (info, stats) →
      0 < info.total_count ∧ ((info.total_count : ℚ) ≠ 0) ∧
      info.null_pct = (info.null_count : ℚ) / (info.total_count : ℚ) * 100 ∧
      info.completeness = 100 - info.null_pct) := by
  constructor
  · intro h; simp [analyze_columns, h]
  · intro hu info stats h
    unfold analyze_columns at h
    by_cases he : df.isEmptyDF
    · simp [he] at h
    · simp only [he, Bool.false_eq_true, if_false] at h
      cases hfind : df.getCol name with
      | none => rw [hfind] at h; cases h
      | some c =>
        rw [hfind] at h
        obtain ⟨rfl, rfl⟩ := Prod.mk.injEq .. ▸ (Option.some_injective _ h)
        have hmem : c ∈ df.cols := List.mem_of_find?_eq_some hfind
        have hrows : c.cells.length = df.nrows := hu c hmem
        have hpos : 0 < c.cells.length := by
          rw [hrows]
          rcases Nat.eq_zero_or_pos df.nrows with h0 | h0
          · exfalso
            apply he
            simp [DataFrame.isEmptyDF, h0]
          · exact h0
        refine ⟨hpos, ?_, rfl, rfl⟩
        exact Nat.cast_ne_zero.mpr (Nat.pos_iff_ne_zero.mp hpos)

/-- A one-column, one-row frame for the C10 witness. -/
def c10df : DataFrame := ⟨[⟨['a'], DType.timedelta, [Cell.ts 3]⟩]⟩

/-- C10 witness: the theorem applied to the concrete one-row frame. -/
theorem C10_witness :
    0 < (show_basic_info ⟨['a'], DType.timedelta, [Cell.ts 3]⟩).total_count ∧
    (((show_basic_info ⟨['a'], DType.timedelta, [Cell.ts 3]⟩).total_count : ℚ) ≠ 0) ∧
    (show_basic_info ⟨['a'], DType.timedelta, [Cell.ts 3]⟩).null_pct =
      ((show_basic_info ⟨['a'], DType.timedelta, [Cell.ts 3]⟩).null_count : ℚ) /
        ((show_basic_info ⟨['a'], DType.timedelta, [Cell.ts 3]⟩).total_count : ℚ) * 100 ∧
    (show_basic_info ⟨['a'], DType.timedelta, [Cell.ts 3]⟩).completeness =
      100 - (show_basic_info ⟨['a'], DType.timedelta, [Cell.ts 3]⟩).null_pct :=
  (C10_nonempty_analysis c10df ['a']).2
    (by
      intro c hc
      simp only [c10df, List.mem_singleton] at hc
      subst hc
      rfl)
    (show_basic_info ⟨['a'], DType.timedelta, [Cell.ts 3]⟩)
    StatsOutput.notSupported rfl

/-! ### C7 -/

/-- Reading rows at a list of in-range positions yields one row per
position. -/
theorem length_filterMap_getElem {α : Type} (rows : List α)
    (idxs : List Nat) (h : ∀ i ∈ idxs, i < rows.length) :
    (idxs.filterMap (fun i => rows[i]?)).length = idxs.length := by
  induction idxs with
  | nil => rfl
  | cons j t ih =>
    have hj : j < rows.length := h j (by simp)
    have ht : ∀ i ∈ t, i < rows.length := fun i hi => h i (by simp [hi])
    simp [List.filterMap_cons, List.getElem?_eq_getElem hj, ih ht]

/-- Every position the sampler keeps is an in-range row position. -/
theorem sampleSeeded_idx_lt {α : Type} (seed n : Nat) (rows : List α) :
    ∀ i ∈ ((List.range rows.length).insertionSort
      (fun a b => lcgKey seed a ≤ lcgKey seed b)).take n, i < rows.length :=
  fun i hi => List.mem_range.mp
    ((List.perm_insertionSort _ _).mem_iff.mp (List.mem_of_mem_take hi))

/-- The sampler returns `min n (number of rows)` rows. -/
theorem sampleSeeded_length {α : Type} (seed n : Nat) (rows : List α) :
    (sampleSeeded seed n rows).length = min n rows.length := by
  unfold sampleSeeded
  rw [length_filterMap_getElem _ _ (sampleSeeded_idx_lt seed n rows),
    List.length_take, List.length_insertionSort, List.length_range]

/-- Every sampled row is a row of the input. -/
theorem sampleSeeded_subset {α : Type} (seed n : Nat) (rows : List α) :
    ∀ x ∈ sampleSeeded seed n rows, x ∈ rows := by
  intro x hx
  unfold sampleSeeded at hx
  obtain ⟨i, hi, hget⟩ := List.mem_filterMap.mp hx
  have hlt : i < rows.length := sampleSeeded_idx_lt seed n rows i hi
  rw [List.getElem?_eq_getElem hlt] at hget
  obtain ⟨rfl⟩ := Option.some_injective _ hget
  exact List.getElem_mem hlt

/-- C7 (confirmed): for a scatter input with strictly more than 5000 non-null
rows the renderer selects exactly 5000 rows, all taken from the input, using
the fixed seed 42; the sampled selection is a pure function of the input (so
two runs on the same input agree); an input of at most 5000 non-null rows is
used in full. -/
theorem C7_scatter_sampling (rows : List (Option ℚ × Option ℚ)) :
    (5000 < (rows.filterMap joinPair).length →
      render_scatter rows =
        some (sampleSeeded 42 5000 (rows.filterMap joinPair)) ∧
      (sampleSeeded 42 5000 (rows.filterMap joinPair)).length = 5000 ∧
      ∀ x ∈ sampleSeeded 42 5000 (rows.filterMap joinPair),
        x ∈ rows.filterMap joinPair) ∧
    ((rows.filterMap joinPair).length ≤ 5000 →
      0 < (rows.filterMap joinPair).length →
      render_scatter rows = some (rows.filterMap joinPair)) ∧
    (∀ rows2, rows = rows2 → render_scatter rows = render_scatter rows2) := by
  refine ⟨?_, ?_, ?_⟩
  · intro h
    refine ⟨?_, ?_, sampleSeeded_subset 42 5000 _⟩
    · unfold render_scatter
      have h0 : ¬ (rows.filterMap joinPair).length = 0 := by omega
      simp only [h0, if_false, h, if_true]
    · rw [sampleSeeded_length]
      omega
  · intro h h0
    unfold render_scatter
    have h1 : ¬ (rows.filterMap joinPair).length = 0 := by omega
    have h2 : ¬ 5000 < (rows.filterMap joinPair).length := by omega
    simp only [h1, if_false, h2]
  · intro rows2 h
    rw [h]

/-- A 5001-row scatter input with no nulls. -/
def scatterRows0 : List (Option ℚ × Option ℚ) :=
  List.replicate 5001 (some 0, some 0)

/-- `filterMap` over a replicated row that maps to `some` keeps every copy. -/
theorem filterMap_replicate_eq {α β : Type} (n : Nat) (x : α) (y : β)
    (f : α → Option β) (h : f x = some y) :
    (List.replicate n x).filterMap f = List.replicate n y := by
  induction n with
  | zero => rfl
  | succ m ih => simp [List.replicate_succ, List.filterMap_cons, h, ih]

/-- C7 witness: the theorem applied to the 5001-row input. -/
theorem C7_witness :
    render_scatter scatterRows0 =
      some (sampleSeeded 42 5000 (scatterRows0.filterMap joinPair)) ∧
    (sampleSeeded 42 5000 (scatterRows0.filterMap joinPair)).length = 5000 ∧
    ∀ x ∈ sampleSeeded 42 5000 (scatterRows0.filterMap joinPair),
      x ∈ scatterRows0.filterMap joinPair :=
  (C7_scatter_sampling scatterRows0).1 (by
    rw [scatterRows0,
      filterMap_replicate_eq 5001 ((some 0 : Option ℚ), (some 0 : Option ℚ))
        ((0 : ℚ), (0 : ℚ)) joinPair rfl, List.length_replicate]
    omega)

/-! ### C8 -/

/-- C8 (confirmed): every summary statistic — the numeric block (mean,
std via its square, min, quartiles, max) of both the detail renderer and
`get_column_stats`, the temporal block (earliest, latest, span), and the
textual value frequencies — is invariant under removing the null entries
first: nulls never contribute to any statistic's value.  (The top-N
*percentages* are relative to total row count by design and are exactly the
noted exception in the spec.) -/
theorem C8_null_invariance (xs : List (Option ℚ)) (ts : List (Option Int))
    (vs : List (Option String)) :
    show_numeric_stats (removeNulls xs) = show_numeric_stats xs ∧
    pandasNumStats (removeNulls xs) = pandasNumStats xs ∧
    show_datetime_stats (removeNulls ts) = show_datetime_stats ts ∧
    value_counts (removeNulls vs) = value_counts vs := by
  refine ⟨?_, ?_, ?_, ?_⟩ <;>
    simp only [show_numeric_stats, pandasNumStats, show_datetime_stats,
      value_counts, dropna_removeNulls]

/-! ### C3 -/

/-- `Rat.floor` agrees with the floor of the floor ring `ℚ`. -/
theorem rat_floor_eq_int_floor (q : ℚ) : q.floor = ⌊q⌋ := by
  rw [Rat.floor_def, Rat.floor_def']

/-- Non-null values plus nulls make up the whole column. -/
theorem dropna_length_add_nullCount {α : Type} (xs : List (Option α)) :
    (dropna xs).length + nullCount xs = xs.length := by
  induction xs with
  | nil => rfl
  | cons o t ih =>
    cases o <;>
      simp [dropna, nullCount, List.countP_cons] at ih ⊢ <;> omega

/-- The counts in `value_counts` sum to the number of non-null values. -/
theorem sum_snd_value_counts (vs : List (Option String)) :
    ((value_counts vs).map (fun p => p.2)).sum = (dropna vs).length := by
  unfold value_counts
  have hperm :
      ((((dropna vs).dedup.map
          (fun v => (v, (dropna vs).count v))).insertionSort
            (fun a b => b.2 ≤ a.2)).map (fun p => p.2)).Perm
        (((dropna vs).dedup.map
          (fun v => (v, (dropna vs).count v))).map (fun p => p.2)) :=
    (List.perm_insertionSort _ _).map _
  rw [hperm.sum_eq, List.map_map]
  exact List.sum_map_count_dedup_eq_length (dropna vs)

/-- Every count in `value_counts` is at least one. -/
theorem value_counts_pos (vs : List (Option String)) :
    ∀ p ∈ value_counts vs, 1 ≤ p.2 := by
  intro p hp
  unfold value_counts at hp
  have hp' := (List.perm_insertionSort _ _).mem_iff.mp hp
  obtain ⟨v, hv, rfl⟩ := List.mem_map.mp hp'
  exact List.count_pos_iff.mpr (List.mem_dedup.mp hv)

/-- Summing the exact percentages factors through the sum of the counts. -/
theorem sum_exactPct (L : List (String × Nat)) (T : Nat) :
    (L.map (fun p => exactPct T p.2)).sum =
      (((L.map (fun p => p.2)).sum : ℕ) : ℚ) / (T : ℚ) * 100 := by
  induction L with
  | nil => simp
  | cons a t ih =>
    simp only [List.map_cons, List.sum_cons]
    rw [ih, Nat.cast_add]
    unfold exactPct
    ring

/-- C3 (amended): each top-`N` entry's displayed percentage is the entry's
count over the **total** row count (nulls included), rounded to one decimal
place.  The *exact* (unrounded) top-`N` percentages always sum to at most
100% of total rows, and that sum reaches 100% only when `N` is at least the
number of distinct non-null values and the column has no nulls.  The claim
fails for the *rounded* percentages, whose sum can exceed 100% (see the
counterexample: seven singleton values round to 14.3% each, summing to
100.1%). -/
theorem C3_topn_percentages (vs : List (Option String)) (n : Nat) :
    top_n_table vs n = ((value_counts vs).take n).map
      (fun p => (p.1, p.2, round1 (exactPct vs.length p.2))) ∧
    (value_counts vs).length = (dropna vs).dedup.length ∧
    exactPctSum vs n ≤ 100 ∧
    (exactPctSum vs n = 100 →
      (value_counts vs).length ≤ n ∧ nullCount vs = 0) := by
  have hsum0 : exactPctSum vs n =
      (((((value_counts vs).take n).map (fun p => p.2)).sum : ℕ) : ℚ) /
        (vs.length : ℚ) * 100 := by
    unfold exactPctSum
    exact sum_exactPct _ _
  have htakedrop :
      (((value_counts vs).take n).map (fun p => p.2)).sum +
        (((value_counts vs).drop n).map (fun p => p.2)).sum =
        (dropna vs).length := by
    rw [List.map_take, List.map_drop, List.sum_take_add_sum_drop,
      sum_snd_value_counts]
  have hclean : (dropna vs).length + nullCount vs = vs.length :=
    dropna_length_add_nullCount vs
  have hK : (((value_counts vs).take n).map (fun p => p.2)).sum ≤ vs.length := by
    omega
  refine ⟨rfl, ?_, ?_, ?_⟩
  · unfold value_counts
    rw [List.length_insertionSort, List.length_map]
  · rw [hsum0]
    rcases Nat.eq_zero_or_pos vs.length with hT | hT
    · rw [hT]
      have : (((value_counts vs).take n).map (fun p => p.2)).sum = 0 := by
        omega
      rw [this]
      norm_num
    · have hTQ : (0 : ℚ) < (vs.length : ℚ) := by exact_mod_cast hT
      rw [div_mul_eq_mul_div, div_le_iff₀ hTQ]
      have hKQ :
          (((((value_counts vs).take n).map (fun p => p.2)).sum : ℕ) : ℚ) ≤
            (vs.length : ℚ) := by exact_mod_cast hK
      nlinarith
  · intro h100
    rw [hsum0] at h100
    rcases Nat.eq_zero_or_pos vs.length with hT | hT
    · exfalso
      rw [hT] at h100
      have : (((value_counts vs).take n).map (fun p => p.2)).sum = 0 := by
        omega
      rw [this] at h100
      norm_num at h100
    · have hTQ : (0 : ℚ) < (vs.length : ℚ) := by exact_mod_cast hT
      have hKT :
          (((((value_counts vs).take n).map (fun p => p.2)).sum : ℕ) : ℚ) =
            (vs.length : ℚ) := by
        rw [div_mul_eq_mul_div, div_eq_iff (ne_of_gt hTQ)] at h100
        linarith
      have hKTn : (((value_counts vs).take n).map (fun p => p.2)).sum =
          vs.length := by exact_mod_cast hKT
      have hnull : nullCount vs = 0 := by omega
      refine ⟨?_, hnull⟩
      by_contra hn
      push_neg at hn
      have hdropne :
          0 < (((value_counts vs).drop n).map (fun p => p.2)).length := by
        rw [List.length_map, List.length_drop]
        omega
      have hone : ∀ x ∈ ((value_counts vs).drop n).map (fun p => p.2),
          1 ≤ x := by
        intro x hx
        obtain ⟨p, hp, rfl⟩ := List.mem_map.mp hx
        exact value_counts_pos vs p (List.mem_of_mem_drop hp)
      have hge := List.card_nsmul_le_sum
        (((value_counts vs).drop n).map (fun p => p.2)) 1 hone
      simp only [smul_eq_mul, mul_one] at hge
      omega

/-- Seven rows, seven distinct values, no nulls: each exact percentage is
100/7 ≈ 14.2857%, displayed as 14.3%. -/
def sevenSingles : List (Option String) :=
  [some "a", some "b", some "c", some "d", some "e", some "f", some "g"]

/-- C3 (counterexample): the claim asserts the resulting (rounded) top-N
percentages always sum to at most 100% — but for seven singleton values the
displayed percentages are 14.3% each, and 7 × 14.3% = 100.1% > 100%. -/
theorem C3_counterexample :
    ¬ (((top_n_table sevenSingles 10).map (fun e => e.2.2)).sum ≤ 100) := by
  have hvc : value_counts sevenSingles =
      [("a", 1), ("b", 1), ("c", 1), ("d", 1), ("e", 1), ("f", 1),
       ("g", 1)] := by decide
  have hlen : sevenSingles.length = 7 := rfl
  have hfract : Int.fract ((1000 : ℚ) / 7) = 6 / 7 := by
    unfold Int.fract
    norm_num
  simp only [top_n_table, hvc, hlen]
  norm_num [round1, roundHalfEven, rat_floor_eq_int_floor, hfract]

/-- Two rows, two distinct values, no nulls: the exact percentages sum to
exactly 100%. -/
def twoSingles : List (Option String) := [some "a", some "b"]

/-- C3 witness: the amended theorem applied at an input where the sum is
exactly 100, discharging the equality hypothesis. -/
theorem C3_witness :
    (value_counts twoSingles).length ≤ 10 ∧ nullCount twoSingles = 0 :=
  (C3_topn_percentages twoSingles 10).2.2.2 (by
    have hvc : value_counts twoSingles = [("a", 1), ("b", 1)] := by decide
    unfold exactPctSum
    rw [hvc]
    norm_num [exactPct, twoSingles])

/-! ### C4 -/

/-- Casting the clamped floor index back to `ℚ` recovers the floor. -/
theorem floor_toNat_cast (x : ℚ) (hx : 0 ≤ x) :
    ((x.floor.toNat : ℚ)) = ((⌊x⌋ : ℤ) : ℚ) := by
  rw [rat_floor_eq_int_floor]
  exact_mod_cast congrArg (fun z => ((z : ℤ) : ℚ))
    (Int.toNat_of_nonneg (Int.floor_nonneg.mpr hx))

/-- The interpolation index of `quantile` stays within the list. -/
theorem quantile_idx_le (ys : List ℚ) (hn : ys ≠ []) {q : ℚ} (h0 : 0 ≤ q)
    (h1 : q ≤ 1) :
    (q * ((ys.length : ℚ) - 1)).floor.toNat ≤ ys.length - 1 := by
  have hN : 0 < ys.length := List.length_pos.mpr hn
  have hN1 : (1 : ℚ) ≤ (ys.length : ℚ) := by exact_mod_cast hN
  have hh0 : 0 ≤ q * ((ys.length : ℚ) - 1) := by nlinarith
  have hhle : q * ((ys.length : ℚ) - 1) ≤ (ys.length : ℚ) - 1 := by nlinarith
  have hfl : ⌊q * ((ys.length : ℚ) - 1)⌋ ≤ (ys.length : ℤ) - 1 := by
    have h2 : ⌊q * ((ys.length : ℚ) - 1)⌋ ≤ ⌊(ys.length : ℚ) - 1⌋ :=
      Int.floor_le_floor hhle
    have h3 : ⌊(ys.length : ℚ) - 1⌋ = (ys.length : ℤ) - 1 := by
      rw [show ((ys.length : ℚ) - 1) = (ys.length : ℚ) - ((1 : ℤ) : ℚ) by
          norm_num,
        Int.floor_sub_int, Int.floor_natCast]
    omega
  rw [rat_floor_eq_int_floor]
  omega

/-- `quantile` on a sorted list lies between the two ranks it
interpolates. -/
theorem quantile_between {ys : List ℚ} (hs : ys.Sorted (· ≤ ·))
    (hn : ys ≠ []) {q : ℚ} (h0 : 0 ≤ q) (h1 : q ≤ 1) :
    ys.getD ((q * ((ys.length : ℚ) - 1)).floor.toNat) 0 ≤ quantile ys q ∧
    quantile ys q ≤
      ys.getD (min ((q * ((ys.length : ℚ) - 1)).floor.toNat + 1)
        (ys.length - 1)) 0 := by
  have hN : 0 < ys.length := List.length_pos.mpr hn
  have hN1 : (1 : ℚ) ≤ (ys.length : ℚ) := by exact_mod_cast hN
  have hh0 : 0 ≤ q * ((ys.length : ℚ) - 1) := by nlinarith
  have hile := quantile_idx_le ys hn h0 h1
  have hcast := floor_toNat_cast _ hh0
  have hg0 : 0 ≤ q * ((ys.length : ℚ) - 1) -
      (((q * ((ys.length : ℚ) - 1)).floor.toNat : ℚ)) := by
    rw [hcast]
    have := Int.floor_le (q * ((ys.length : ℚ) - 1))
    linarith
  have hg1 : q * ((ys.length : ℚ) - 1) -
      (((q * ((ys.length : ℚ) - 1)).floor.toNat : ℚ)) ≤ 1 := by
    rw [hcast]
    have h4 : q * ((ys.length : ℚ) - 1) - ⌊q * ((ys.length : ℚ) - 1)⌋ < 1 := by
      rw [Int.self_sub_floor]
      exact Int.fract_lt_one _
    linarith
  have hminlt : min ((q * ((ys.length : ℚ) - 1)).floor.toNat + 1)
      (ys.length - 1) < ys.length := by omega
  have hige : (q * ((ys.length : ℚ) - 1)).floor.toNat ≤
      min ((q * ((ys.length : ℚ) - 1)).floor.toNat + 1) (ys.length - 1) := by
    omega
  have hab := getD_le_getD_of_sorted hs hige hminlt 0
  constructor
  · show _ ≤ _ + _ * _
    nlinarith
  · show _ + _ * _ ≤ _
    nlinarith

/-- `quantile` on a sorted list is monotone in the requested quantile. -/
theorem quantile_mono {ys : List ℚ} (hs : ys.Sorted (· ≤ ·)) (hn : ys ≠ [])
    {p q : ℚ} (hp0 : 0 ≤ p) (hpq : p ≤ q) (hq1 : q ≤ 1) :
    quantile ys p ≤ quantile ys q := by
  have hN : 0 < ys.length := List.length_pos.mpr hn
  have hN1 : (1 : ℚ) ≤ (ys.length : ℚ) := by exact_mod_cast hN
  have hq0 : 0 ≤ q := le_trans hp0 hpq
  have hp1 : p ≤ 1 := le_trans hpq hq1
  have hhmono : p * ((ys.length : ℚ) - 1) ≤ q * ((ys.length : ℚ) - 1) := by
    nlinarith
  have hidx : (p * ((ys.length : ℚ) - 1)).floor.toNat ≤
      (q * ((ys.length : ℚ) - 1)).floor.toNat := by
    rw [rat_floor_eq_int_floor, rat_floor_eq_int_floor]
    exact Int.toNat_le_toNat (Int.floor_le_floor hhmono)
  rcases Nat.lt_or_ge (p * ((ys.length : ℚ) - 1)).floor.toNat
      (q * ((ys.length : ℚ) - 1)).floor.toNat with hlt | hge
  · have h1 := (quantile_between hs hn hp0 hp1).2
    have h2 := (quantile_between hs hn hq0 hq1).1
    have hqle := quantile_idx_le ys hn hq0 hq1
    have hmid : ys.getD (min ((p * ((ys.length : ℚ) - 1)).floor.toNat + 1)
        (ys.length - 1)) 0 ≤
        ys.getD ((q * ((ys.length : ℚ) - 1)).floor.toNat) 0 :=
      getD_le_getD_of_sorted hs (by omega) (by omega) 0
    linarith
  · have heq : (p * ((ys.length : ℚ) - 1)).floor.toNat =
        (q * ((ys.length : ℚ) - 1)).floor.toNat := by omega
    have hple := quantile_idx_le ys hn hp0 hp1
    have hminlt : min ((p * ((ys.length : ℚ) - 1)).floor.toNat + 1)
        (ys.length - 1) < ys.length := by omega
    have hab := getD_le_getD_of_sorted hs
      (by omega : (p * ((ys.length : ℚ) - 1)).floor.toNat ≤
        min ((p * ((ys.length : ℚ) - 1)).floor.toNat + 1) (ys.length - 1))
      hminlt 0
    simp only [quantile]
    rw [← heq]
    have hgg : p * ((ys.length : ℚ) - 1) -
        (((p * ((ys.length : ℚ) - 1)).floor.toNat : ℚ)) ≤
        q * ((ys.length : ℚ) - 1) -
        (((p * ((ys.length : ℚ) - 1)).floor.toNat : ℚ)) := by linarith
    have := mul_le_mul_of_nonneg_right hgg (sub_nonneg.mpr hab)
    linarith

/-- `quantile 0` is the first sorted value. -/
theorem quantile_zero (ys : List ℚ) : quantile ys 0 = ys.getD 0 0 := by
  unfold quantile
  norm_num [rat_floor_eq_int_floor]

/-- `quantile 1` is the last sorted value. -/
theorem quantile_one (ys : List ℚ) (hn : ys ≠ []) :
    quantile ys 1 = ys.getD (ys.length - 1) 0 := by
  have hN : 0 < ys.length := List.length_pos.mpr hn
  simp only [quantile]
  have hfl : ((1 : ℚ) * ((ys.length : ℚ) - 1)).floor = (ys.length : ℤ) - 1 := by
    rw [rat_floor_eq_int_floor, one_mul,
      show ((ys.length : ℚ) - 1) = (ys.length : ℚ) - ((1 : ℤ) : ℚ) by norm_num,
      Int.floor_sub_int, Int.floor_natCast]
  rw [hfl]
  have htn : ((ys.length : ℤ) - 1).toNat = ys.length - 1 := by omega
  rw [htn]
  have hcast : ((ys.length - 1 : ℕ) : ℚ) = (ys.length : ℚ) - 1 := by
    have : (1 : ℕ) ≤ ys.length := hN
    push_cast [Nat.cast_sub this]
    ring
  rw [hcast]
  ring_nf

/-- The mean of a nonempty list lies between its minimum and maximum. -/
theorem mean_between (l : List ℚ) (hn : l ≠ []) :
    seriesMin l ≤ seriesMean l ∧ seriesMean l ≤ seriesMax l := by
  have hN : 0 < l.length := List.length_pos.mpr hn
  have hNQ : (0 : ℚ) < (l.length : ℚ) := by exact_mod_cast hN
  have hlo : ∀ x ∈ l, seriesMin l ≤ x := fun x hx => sortedHead_le_mem hx 0
  have hhi : ∀ x ∈ l, x ≤ seriesMax l := fun x hx => mem_le_sortedLast hx 0
  have hsumlo := List.card_nsmul_le_sum l (seriesMin l) hlo
  have hsumhi := List.sum_le_card_nsmul l (seriesMax l) hhi
  rw [nsmul_eq_mul] at hsumlo hsumhi
  constructor
  · rw [seriesMean, le_div_iff₀ hNQ]
    linarith
  · rw [seriesMean, div_le_iff₀ hNQ]
    linarith

/-- C4 (confirmed): for every numeric column with at least one non-null
value, the computed summary satisfies
`min ≤ q25 ≤ median ≤ q75 ≤ max`, the mean lies in `[min, max]`, and the
numeric block of `get_column_stats` carries exactly the same values, so the
ordering holds for both entry points. -/
theorem C4_numeric_order (xs : List (Option ℚ)) (s : NumericSummary)
    (h : show_numeric_stats xs = some s) :
    s.min ≤ s.q25 ∧ s.q25 ≤ s.median ∧ s.median ≤ s.q75 ∧ s.q75 ≤ s.max ∧
    s.min ≤ s.mean ∧ s.mean ≤ s.max ∧
    pandasNumStats xs = ⟨some s.mean, s.stdSq, some s.min, some s.max,
      some s.median, some s.q25, some s.q75⟩ := by
  unfold show_numeric_stats at h
  by_cases hc : (dropna xs).length = 0
  · simp [hc] at h
  · simp only [hc, if_false] at h
    obtain ⟨rfl⟩ := Option.some_injective _ h
    have hne : dropna xs ≠ [] := by
      intro hnil; exact hc (by simp [hnil])
    have hsorted : (sortAsc (dropna xs)).Sorted (· ≤ ·) :=
      insertionSort_le_sorted _
    have hlen : (sortAsc (dropna xs)).length = (dropna xs).length :=
      List.length_insertionSort _ _
    have hsne : sortAsc (dropna xs) ≠ [] := by
      intro hnil
      rw [hnil] at hlen
      exact hc hlen.symm
    have hmin : seriesMin (dropna xs) = quantile (sortAsc (dropna xs)) 0 :=
      (quantile_zero _).symm
    have hmax : seriesMax (dropna xs) = quantile (sortAsc (dropna xs)) 1 := by
      rw [quantile_one _ hsne, seriesMax, hlen]
    refine ⟨?_, ?_, ?_, ?_, ?_, ?_, ?_⟩
    · rw [show (⟨seriesMean (dropna xs), seriesVar (dropna xs),
        seriesMin (dropna xs), quantile (sortAsc (dropna xs)) (1 / 4),
        quantile (sortAsc (dropna xs)) (1 / 2),
        quantile (sortAsc (dropna xs)) (3 / 4),
        seriesMax (dropna xs)⟩ : NumericSummary).min =
          seriesMin (dropna xs) from rfl, hmin]
      exact quantile_mono hsorted hsne (by norm_num) (by norm_num) (by norm_num)
    · exact quantile_mono hsorted hsne (by norm_num) (by norm_num) (by norm_num)
    · exact quantile_mono hsorted hsne (by norm_num) (by norm_num) (by norm_num)
    · rw [show (⟨seriesMean (dropna xs), seriesVar (dropna xs),
        seriesMin (dropna xs), quantile (sortAsc (dropna xs)) (1 / 4),
        quantile (sortAsc (dropna xs)) (1 / 2),
        quantile (sortAsc (dropna xs)) (3 / 4),
        seriesMax (dropna xs)⟩ : NumericSummary).max =
          seriesMax (dropna xs) from rfl, hmax]
      exact quantile_mono hsorted hsne (by norm_num) (by norm_num) (by norm_num)
    · exact (mean_between _ hne).1
    · exact (mean_between _ hne).2
    · simp only [pandasNumStats, hc, if_false]

/-- C4 witness: the theorem applied to the column `[1, 2, 3]`, whose summary
is mean 2, variance 1, min 1, q25 3/2, median 2, q75 5/2, max 3. -/
theorem C4_witness :
    (⟨2, some 1, 1, 3 / 2, 2, 5 / 2, 3⟩ : NumericSummary).min ≤
      (⟨2, some 1, 1, 3 / 2, 2, 5 / 2, 3⟩ : NumericSummary).q25 ∧
    (⟨2, some 1, 1, 3 / 2, 2, 5 / 2, 3⟩ : NumericSummary).q25 ≤
      (⟨2, some 1, 1, 3 / 2, 2, 5 / 2, 3⟩ : NumericSummary).median ∧
    (⟨2, some 1, 1, 3 / 2, 2, 5 / 2, 3⟩ : NumericSummary).median ≤
      (⟨2, some 1, 1, 3 / 2, 2, 5 / 2, 3⟩ : NumericSummary).q75 ∧
    (⟨2, some 1, 1, 3 / 2, 2, 5 / 2, 3⟩ : NumericSummary).q75 ≤
      (⟨2, some 1, 1, 3 / 2, 2, 5 / 2, 3⟩ : NumericSummary).max ∧
    (⟨2, some 1, 1, 3 / 2, 2, 5 / 2, 3⟩ : NumericSummary).min ≤
      (⟨2, some 1, 1, 3 / 2, 2, 5 / 2, 3⟩ : NumericSummary).mean ∧
    (⟨2, some 1, 1, 3 / 2, 2, 5 / 2, 3⟩ : NumericSummary).mean ≤
      (⟨2, some 1, 1, 3 / 2, 2, 5 / 2, 3⟩ : NumericSummary).max ∧
    pandasNumStats [some 1, some 2, some 3] =
      ⟨some (⟨2, some 1, 1, 3 / 2, 2, 5 / 2, 3⟩ : NumericSummary).mean,
        (⟨2, some 1, 1, 3 / 2, 2, 5 / 2, 3⟩ : NumericSummary).stdSq,
        some (⟨2, some 1, 1, 3 / 2, 2, 5 / 2, 3⟩ : NumericSummary).min,
        some (⟨2, some 1, 1, 3 / 2, 2, 5 / 2, 3⟩ : NumericSummary).max,
        some (⟨2, some 1, 1, 3 / 2, 2, 5 / 2, 3⟩ : NumericSummary).median,
        some (⟨2, some 1, 1, 3 / 2, 2, 5 / 2, 3⟩ : NumericSummary).q25,
        some (⟨2, some 1, 1, 3 / 2, 2, 5 / 2, 3⟩ : NumericSummary).q75⟩ :=
  C4_numeric_order [some 1, some 2, some 3] ⟨2, some 1, 1, 3 / 2, 2, 5 / 2, 3⟩
    (by
      have hclean : dropna ([some 1, some 2, some 3] : List (Option ℚ)) =
          [1, 2, 3] := by
        norm_num [dropna, List.filterMap_cons]
      have hsort : sortAsc [1, 2, 3] = [1, 2, 3] := by
        norm_num [sortAsc, List.insertionSort, List.orderedInsert]
      have hq25 : quantile [1, 2, 3] (1 / 4) = 3 / 2 := by
        unfold quantile
        norm_num [rat_floor_eq_int_floor, List.getD]
      have hq50 : quantile [1, 2, 3] (1 / 2) = 2 := by
        unfold quantile
        norm_num [rat_floor_eq_int_floor, List.getD]
      have hq75 : quantile [1, 2, 3] (3 / 4) = 5 / 2 := by
        unfold quantile
        norm_num [rat_floor_eq_int_floor, List.getD]
      unfold show_numeric_stats
      rw [hclean]
      norm_num [hsort, hq25, hq50, hq75, seriesMean, seriesVar, seriesMin,
        seriesMax, sortAsc, List.insertionSort, List.orderedInsert,
        List.getD])

end HFExplorer
